import Mathlib

/-!
Verification development for the `cns-studios/scraper` crawl engine.

The definitions below are a shallow embedding of the Python source under
`src/`.  Pure helpers from `urllib.parse`, `os.path` and `str` are ported
as executable Lean functions over `List Char`; the stateful parts of
`WebScraper` (counters under `stop_lock`, the asset caches, the robots
cache, the per-URL worker) are embedded as explicit state-passing
functions or as small labelled transition systems whose atomic steps are
exactly the critical sections of the code.
-/

namespace Scraper

/-! ## Basic string machinery (ports of Python str operations) -/

/-- The characters of a string. -/
def chs (s : String) : List Char := s.data

/-- Build a string back from characters. -/
def ofChs (l : List Char) : String := String.mk l

/-- The single-quote character (ASCII 39). -/
def sqChar : Char := Char.ofNat 39

/-- The single-quote as a one-character string. -/
def sq : String := sqChar.toString

/-- `dropPrefixL p l` returns the remainder of `l` after the prefix `p`,
or `none` when `p` is not a prefix of `l`. -/
def dropPrefixL : List Char → List Char → Option (List Char)
  | [], cs => some cs
  | _ :: _, [] => none
  | p :: ps, c :: cs => if c = p then dropPrefixL ps cs else none

/-- Boolean prefix test on character lists. -/
def isPrefL (p cs : List Char) : Bool := (dropPrefixL p cs).isSome

/-- Python `needle in haystack` on strings (substring containment). -/
def containsSubL (n : List Char) : List Char → Bool
  | [] => n.isEmpty
  | c :: cs => isPrefL n (c :: cs) || containsSubL n cs

/-- Substring containment on `String` (Python `in`). -/
def containsSub (needle hay : String) : Bool := containsSubL needle.data hay.data

/-- Python `str.startswith` for a single prefix. -/
def startsWithS (p s : String) : Bool := isPrefL p.data s.data

/-- Python `str.endswith` for a single suffix. -/
def endsWithS (suf s : String) : Bool := isPrefL suf.data.reverse s.data.reverse

/-- Python `str.replace(pat, repl)` over character lists: leftmost,
non-overlapping, all occurrences.  The `fuel` argument is the length of
the haystack; every step consumes at least one character when `pat` is
non-empty (all patterns used by the source are non-empty). -/
def replaceSubL (pat repl : List Char) : Nat → List Char → List Char
  | _, [] => []
  | 0, cs => cs
  | fuel + 1, c :: cs =>
    if pat.isEmpty then c :: cs
    else
      match dropPrefixL pat (c :: cs) with
      | some rest => repl ++ replaceSubL pat repl fuel rest
      | none => c :: replaceSubL pat repl fuel cs

/-- Python `hay.replace(pat, repl)`. -/
def replaceS (hay pat repl : String) : String :=
  ofChs (replaceSubL pat.data repl.data hay.data.length hay.data)

/-- Python `str.split(sep)` for a one-character separator: splits at every
occurrence, keeping empty pieces (`"a,,b".split(',') = ['a','','b']`). -/
def splitOnCharL (sep : Char) : List Char → List (List Char)
  | [] => [[]]
  | c :: cs =>
    let r := splitOnCharL sep cs
    if c = sep then [] :: r
    else
      match r with
      | [] => [[c]]
      | h :: t => (c :: h) :: t

/-- `String` version of `splitOnCharL`. -/
def splitOnCharS (sep : Char) (s : String) : List String :=
  (splitOnCharL sep s.data).map ofChs

/-- Python `s.split(sep)[0]`: the prefix before the first occurrence of
`sep` (the whole string when `sep` is absent). -/
def takeUntilChar (sep : Char) (s : String) : String :=
  ofChs (s.data.takeWhile (fun c => ¬ c = sep))

/-- Split at the first occurrence of `sep`: `(before, after)`; when `sep`
is absent the second component is empty (Python `split(sep, 1)` shape). -/
def splitFirstL (sep : Char) : List Char → List Char × List Char
  | [] => ([], [])
  | c :: cs =>
    if c = sep then ([], cs)
    else
      let r := splitFirstL sep cs
      (c :: r.1, r.2)

/-- Index of the last occurrence of `c` in `l` (Python `str.rfind`),
`none` when absent. -/
def rfindIdxAux (c : Char) : List Char → Nat → Option Nat
  | [], _ => none
  | x :: xs, i =>
    match rfindIdxAux c xs (i + 1) with
    | some j => some j
    | none => if x = c then some i else none

/-- `rfindIdx c l` is the last index of `c` in `l`, if any. -/
def rfindIdx (c : Char) (l : List Char) : Option Nat := rfindIdxAux c l 0

/-- The whitespace characters stripped by Python `str.strip()`. -/
def isPySpace (c : Char) : Bool :=
  c = ' ' || c = Char.ofNat 9 || c = Char.ofNat 10 || c = Char.ofNat 13 ||
  c = Char.ofNat 11 || c = Char.ofNat 12

/-- Python `str.strip()`. -/
def stripS (s : String) : String :=
  ofChs (((s.data.dropWhile isPySpace).reverse.dropWhile isPySpace).reverse)

/-- Python `str.lower()` (ASCII scope, which covers every string the
source lowercases). -/
def lowerS (s : String) : String := ofChs (s.data.map Char.toLower)

/-- Association-list lookup mirroring a Python dict in which later
writes are consed at the head (head-first lookup = last-writer-wins). -/
def lookupA {α : Type} : List (String × α) → String → Option α
  | [], _ => none
  | (k, v) :: rest, u => if k = u then some v else lookupA rest u

/-- `dict.get(k, 0)` for a counter map. -/
def getCount (m : List (String × Nat)) (k : String) : Nat := (lookupA m k).getD 0

/-- `m[k] = m.get(k, 0) + 1` for a counter map. -/
def bumpCount (m : List (String × Nat)) (k : String) : List (String × Nat) :=
  (k, getCount m k + 1) :: m

/-! ## `os.path.splitext` (extension part only)

Port of CPython `posixpath.splitext`: the extension starts at the last
dot, provided that dot comes after the last `/` and the basename does
not consist solely of leading dots up to it. -/

/-- The extension component of `os.path.splitext(p)`. -/
def splitextExt (p : String) : String :=
  let l := p.data
  match rfindIdx '.' l with
  | none => ""
  | some dot =>
    let sepPlus1 := match rfindIdx '/' l with | none => 0 | some s => s + 1
    if sepPlus1 ≤ dot then
      let between := (l.drop sepPlus1).take (dot - sepPlus1)
      if between.any (fun c => ¬ c = '.') then ofChs (l.drop dot) else ""
    else ""

/-! ## `urllib.parse` port

`urlsplit`/`urlparse`/`urljoin`/`urlunparse` as used by the source.  The
only exception CPython's `urlsplit` raises on the inputs in scope is the
`Invalid IPv6 URL` bracket check, which we model with `Except`. -/

/-- The parts of a parsed URL (as CPython `urlparse`). -/
structure UrlParts where
  scheme : String
  netloc : String
  path : String
  params : String
  query : String
  fragment : String
deriving DecidableEq

/-- Characters allowed in a URL scheme after the leading letter. -/
def isSchemeChar (c : Char) : Bool :=
  (c.isAlpha && c.toNat < 128) || (c.isDigit && c.toNat < 128) || c = '+' || c = '-' || c = '.'

/-- Split `acc`-reversed prefix at the first `:`; `none` when there is no
colon. -/
def splitColonAux : List Char → List Char → Option (List Char × List Char)
  | _, [] => none
  | acc, c :: cs => if c = ':' then some (acc.reverse, cs) else splitColonAux (c :: acc) cs

/-- Schemes for which relative joining applies (CPython `uses_relative`). -/
def usesRelative : List String :=
  ["", "ftp", "http", "gopher", "nntp", "imap", "wais", "file", "https",
   "shttp", "mms", "prospero", "rtsp", "rtspu", "sftp", "svn", "svn+ssh", "ws", "wss"]

/-- Schemes carrying a netloc (CPython `uses_netloc`, main entries). -/
def usesNetloc : List String :=
  ["", "ftp", "http", "gopher", "nntp", "telnet", "imap", "wais", "file",
   "mms", "https", "shttp", "snews", "prospero", "rtsp", "rtspu", "rsync",
   "svn", "svn+ssh", "sftp", "nfs", "git", "git+ssh", "ws", "wss"]

/-- Schemes with `;params` in the last path segment (CPython `uses_params`). -/
def usesParams : List String :=
  ["", "ftp", "hdl", "prospero", "http", "imap", "https", "shttp", "rtsp",
   "rtspu", "sip", "sips", "mms", "sftp", "tel"]

/-- CPython `_splitparams`. -/
def splitParams (url : List Char) : List Char × List Char :=
  let searchFrom : Nat := match rfindIdx '/' url with | none => 0 | some s => s
  let tailPart := url.drop searchFrom
  match tailPart.findIdx? (fun c => c = ';') with
  | none => (url, [])
  | some i =>
    let cut := searchFrom + i
    (url.take cut, url.drop (cut + 1))

/-- CPython `urlsplit` + the `_splitparams` step of `urlparse`, with the
`Invalid IPv6 URL` bracket check modelled as an `Except` error. -/
def urlparseE (u : String) : Except String UrlParts := do
  let l := u.data
  let schemeSplit :=
    match splitColonAux [] l with
    | some (sc, rest) =>
      match sc with
      | [] => (([] : List Char), l)
      | c0 :: crest =>
        if (c0.isAlpha && c0.toNat < 128) && crest.all isSchemeChar && c0.toNat < 128 then
          ((c0 :: crest).map Char.toLower, rest)
        else ([], l)
    | none => ([], l)
  let scheme := schemeSplit.1
  let rest0 := schemeSplit.2
  let netlocSplit :=
    if isPrefL "//".data rest0 then
      let r := rest0.drop 2
      let nl := r.takeWhile (fun c => ¬ (c = '/' || c = '?' || c = '#'))
      (nl, r.drop nl.length)
    else ([], rest0)
  let netloc := netlocSplit.1
  if (netloc.contains '[' && ¬ netloc.contains ']') ||
     (netloc.contains ']' && ¬ netloc.contains '[') then
    throw "Invalid IPv6 URL"
  let rest1 := netlocSplit.2
  let fragSplit := if rest1.contains '#' then splitFirstL '#' rest1 else (rest1, [])
  let querySplit := if fragSplit.1.contains '?' then splitFirstL '?' fragSplit.1 else (fragSplit.1, [])
  let path0 := querySplit.1
  let paramsSplit :=
    if usesParams.contains (ofChs scheme) && path0.contains ';' then splitParams path0
    else (path0, [])
  return { scheme := ofChs scheme, netloc := ofChs netloc,
           path := ofChs paramsSplit.1, params := ofChs paramsSplit.2,
           query := ofChs querySplit.2, fragment := ofChs fragSplit.2 }

/-- Total wrapper for contexts where the source calls `urlparse` outside a
`try` on inputs with well-formed netlocs (error case returns empty parts). -/
def urlparseT (u : String) : UrlParts :=
  match urlparseE u with
  | .ok p => p
  | .error _ => { scheme := "", netloc := "", path := "", params := "", query := "", fragment := "" }

/-- CPython `urlunsplit`/`urlunparse` on parsed parts. -/
def urlunparse (p : UrlParts) : String :=
  let url0 := if p.params ≠ "" then p.path ++ ";" ++ p.params else p.path
  let url1 :=
    if p.netloc ≠ "" || isPrefL "//".data url0.data then
      let u := if url0 ≠ "" && ¬ startsWithS "/" url0 then "/" ++ url0 else url0
      "//" ++ p.netloc ++ u
    else url0
  let url2 := if p.scheme ≠ "" then p.scheme ++ ":" ++ url1 else url1
  let url3 := if p.query ≠ "" then url2 ++ "?" ++ p.query else url2
  if p.fragment ≠ "" then url3 ++ "#" ++ p.fragment else url3

/-- `filter(None, interior)` applied to `segments[1:-1]` in urljoin. -/
def filterInterior : List String → List String
  | [] => []
  | [x] => [x]
  | x :: xs =>
    let rec core : List String → List String
      | [] => []
      | [y] => [y]
      | y :: ys => if y = "" then core ys else y :: core ys
    x :: core xs

/-- The `..`/`.` resolution loop of CPython `urljoin`. -/
def resolveSegs : List String → List String → List String
  | acc, [] => acc.reverse
  | acc, seg :: rest =>
    if seg = ".." then resolveSegs (acc.drop 1) rest
    else if seg = "." then resolveSegs acc rest
    else resolveSegs (seg :: acc) rest

/-- CPython `urljoin(base, url)`. -/
def urljoin (base url : String) : String :=
  if base = "" then url
  else if url = "" then base
  else
    match urlparseE base, urlparseE url with
    | .ok b, .ok u0 =>
      let scheme := if u0.scheme = "" then b.scheme else u0.scheme
      if scheme ≠ b.scheme || ¬ usesRelative.contains scheme then url
      else
        let afterNetloc :=
          if usesNetloc.contains scheme then
            if u0.netloc ≠ "" then none else some b.netloc
          else some u0.netloc
        match afterNetloc with
        | none => urlunparse { u0 with scheme := scheme }
        | some netloc =>
          if u0.path = "" && u0.params = "" then
            let query := if u0.query = "" then b.query else u0.query
            urlunparse { scheme := scheme, netloc := netloc, path := b.path,
                         params := b.params, query := query, fragment := u0.fragment }
          else
            let baseParts0 := splitOnCharS '/' b.path
            let baseParts :=
              match baseParts0.getLast? with
              | some last => if last ≠ "" then baseParts0.dropLast else baseParts0
              | none => baseParts0
            let segments :=
              if startsWithS "/" u0.path then splitOnCharS '/' u0.path
              else filterInterior (baseParts ++ splitOnCharS '/' u0.path)
            let resolved0 := resolveSegs [] segments
            let resolved :=
              match segments.getLast? with
              | some last => if last = "." || last = ".." then resolved0 ++ [""] else resolved0
              | none => resolved0
            let joined := String.intercalate "/" resolved
            let path := if joined = "" then "/" else joined
            urlunparse { scheme := scheme, netloc := netloc, path := path,
                         params := u0.params, query := u0.query, fragment := u0.fragment }
    | _, _ => url

/-! ## `URLFilter` (src/scraping_service/utils.py)

`should_scrape` wraps its whole body in `try/except` and returns `False`
on any exception.  The body is embedded as an `Except`-valued function
(`shouldScrapeE`), the public entry point as the catching wrapper. -/

/-- Value of a hex digit, if `c` is one. -/
def hexVal (c : Char) : Option Nat :=
  if c.isDigit then some (c.toNat - 48)
  else if 97 ≤ c.toNat && c.toNat ≤ 102 then some (c.toNat - 87)
  else if 65 ≤ c.toNat && c.toNat ≤ 70 then some (c.toNat - 55)
  else none

/-- Python `unquote_plus` on a query key (single-byte scope; the keys
compared by the source are plain ASCII). -/
def unquotePlusL : List Char → List Char
  | [] => []
  | '+' :: cs => ' ' :: unquotePlusL cs
  | '%' :: a :: b :: cs =>
    match hexVal a, hexVal b with
    | some x, some y => Char.ofNat (16 * x + y) :: unquotePlusL cs
    | _, _ => '%' :: unquotePlusL (a :: b :: cs)
  | c :: cs => c :: unquotePlusL cs

/-- The keys of Python `parse_qs(query)` with default options: fields are
split on `&`; a field without `=` or with an empty value is dropped. -/
def parseQsKeys (query : String) : List String :=
  (splitOnCharS '&' query).filterMap fun nv =>
    if nv = "" then none
    else if nv.data.contains '=' then
      let p := splitFirstL '=' nv.data
      if p.2.isEmpty then none else some (ofChs (unquotePlusL p.1))
    else none

/-- `URLFilter.DOWNLOAD_EXTENSIONS`. -/
def downloadExtensions : List String :=
  [".pdf", ".zip", ".exe", ".dmg", ".msi", ".tar.gz", ".rar", ".doc",
   ".docx", ".xls", ".xlsx"]

/-- `re.search(pattern, url, re.IGNORECASE)` over `URLFilter.EXCLUDE_PATTERNS`:
every pattern except `#$` is a literal, hence a case-insensitive substring
test; `#$` matches exactly when the url ends with `#`. -/
def excludePatternsMatch (url : String) : Bool :=
  let low := lowerS url
  containsSub "/login" low || containsSub "/signin" low ||
  containsSub "/signup" low || containsSub "/register" low ||
  containsSub "/logout" low || containsSub "mailto:" low ||
  containsSub "tel:" low || containsSub "javascript:" low ||
  endsWithS "#" url

/-- The exclude query keys of `should_scrape`. -/
def isExcludeParam (k : String) : Bool :=
  k = "download" || k = "login" || k = "logout" || k = "signin" || k = "signup"

/-- Body of `URLFilter.should_scrape` (inside its `try`). -/
def shouldScrapeE (url baseDomain : String) : Except String Bool := do
  let parsed ← urlparseE url
  let baseParsed ← urlparseE baseDomain
  if parsed.netloc ≠ baseParsed.netloc then return false
  let path := lowerS parsed.path
  let ext := splitextExt path
  if downloadExtensions.contains ext then return false
  if excludePatternsMatch url then return false
  if (parseQsKeys parsed.query).any isExcludeParam then return false
  return true

/-- `URLFilter.should_scrape`: the `except` clause turns any internal
exception into `False`. -/
def shouldScrape (url baseDomain : String) : Bool :=
  match shouldScrapeE url baseDomain with
  | .ok b => b
  | .error _ => false

/-! ## `WebScraper.get_asset_local_path` (src/scraper.py lines 114-149)

The MD5 digest is taken as a function parameter `md5hex` (the source
calls `hashlib.md5(url.encode()).hexdigest()`); every theorem holds for
an arbitrary digest function. -/

/-- Port of `get_asset_local_path`.  Note the source's
`ext = os.path.splitext(parsed_path)[1] or '.bin'`: an empty extension
becomes `.bin` immediately, before the `if not ext or len(ext) > 10`
sanity check, so the type-specific defaults trigger only for extensions
longer than 10 characters. -/
def getAssetLocalPath (md5hex : String → String) (url assetType : String) : String :=
  let urlHash := md5hex url
  let parsedPath := (urlparseT url).path
  let ext0 := splitextExt parsedPath
  let ext1 := if ext0 = "" then ".bin" else ext0
  let ext2 := if ext1.data.contains '?' then takeUntilChar '?' ext1 else ext1
  let ext :=
    if ext2 = "" || 10 < ext2.length then
      if assetType = "image" then ".jpg"
      else if assetType = "css" then ".css"
      else if assetType = "js" then ".js"
      else ".bin"
    else ext2
  let subdir :=
    if assetType = "image" || assetType = "img" then "images"
    else if assetType = "css" then "css"
    else if assetType = "js" || assetType = "javascript" then "js"
    else if assetType = "font" then "fonts"
    else if assetType = "video" || assetType = "audio" || assetType = "media" then "media"
    else "assets"
  subdir ++ "/" ++ urlHash ++ ext

/-! ## Page storage (src/scraper.py lines 512-594)

`save_page_content` either returns the chosen file path or, on an I/O
error, `None`; `process_url` then stores the metadata record with that
(possibly `None`) `filepath` and never calls `stats.add_failed`. -/

/-- The file path `save_page_content` chooses for a page. -/
def savePagePath (md5hex : String → String) (outputDir url contentType : String) : String :=
  let urlHash := md5hex url
  if containsSub "html" contentType || containsSub "text" contentType then
    outputDir ++ "/html/" ++ urlHash ++ ".html"
  else
    let ext :=
      if containsSub "json" contentType then ".json"
      else if containsSub "xml" contentType then ".xml"
      else ".txt"
    outputDir ++ "/html/" ++ urlHash ++ ext

/-- `save_page_content`: `ioOk = false` models the `except` path (write
failed), which returns `None`. -/
def savePageContentModel (md5hex : String → String) (outputDir url contentType : String)
    (ioOk : Bool) : Option String :=
  if ioOk then some (savePagePath md5hex outputDir url contentType) else none

/-- The storage tail of `process_url` (lines 574-594): `stats.add_page`
runs before the save, then the metadata record is stored with whatever
`save_page_content` returned.  Result: (scraped_data, pages_scraped stat,
pages_failed stat). -/
def storeTailModel (md5hex : String → String) (outputDir : String)
    (scrapedData : List (String × Option String)) (pagesScrapedStat pagesFailedStat : Nat)
    (url contentType : String) (ioOk : Bool) :
    List (String × Option String) × Nat × Nat :=
  let filepath := savePageContentModel md5hex outputDir url contentType ioOk
  ((url, filepath) :: scrapedData, pagesScrapedStat + 1, pagesFailedStat)

/-! ## `WebScraper.rewrite_css_urls` (src/scraper.py lines 380-405)

The source's regex is the literal text
`urlKATEX_INLINE_OPEN[\x27"]?([^\x27")]+)[\x27"]?KATEX_INLINE_CLOSE` —
the `(`/`)` of an intended `url\(...\)` appear as the literal words
`KATEX_INLINE_OPEN`/`KATEX_INLINE_CLOSE`.  We embed `re.findall` of that
pattern exactly: a match must begin with the literal `urlKATEX_INLINE_OPEN`,
then an optional quote, a non-empty run of characters outside
`\x27 " )`, an optional quote, and the literal `KATEX_INLINE_CLOSE`. -/

/-- The literal head of the source regex. -/
def kxOpen : List Char := "urlKATEX_INLINE_OPEN".data

/-- The literal tail of the source regex. -/
def kxClose : List Char := "KATEX_INLINE_CLOSE".data

/-- Characters admitted by the capture group `[^\x27")]+`. -/
def isCssGroupChar (c : Char) : Bool := ¬ (c = sqChar || c = '"' || c = ')')

/-- `[\x27"]?KATEX_INLINE_CLOSE` at `l`: greedy optional quote with
backtracking. -/
def cssCloseAt (l : List Char) : Option (List Char) :=
  match l with
  | c :: rest =>
    if c = sqChar || c = '"' then
      match dropPrefixL kxClose rest with
      | some r => some r
      | none => dropPrefixL kxClose l
    else dropPrefixL kxClose l
  | [] => none

/-- Backtrack the greedy group over its maximal run `g` (longest first,
at least one character), then match the closing part. -/
def cssGroupTry (g rest : List Char) : Nat → Option (List Char × List Char)
  | 0 => none
  | k + 1 =>
    match cssCloseAt (g.drop (k + 1) ++ rest) with
    | some r => some (g.take (k + 1), r)
    | none => cssGroupTry g rest k

/-- Try the whole pattern at the head of `l`; on success returns the
captured group and the remainder after the match. -/
def cssMatchAt (l : List Char) : Option (List Char × List Char) :=
  match dropPrefixL kxOpen l with
  | none => none
  | some afterOpen =>
    let tryFrom : List Char → Option (List Char × List Char) := fun t =>
      let g := t.takeWhile isCssGroupChar
      if g.isEmpty then none else cssGroupTry g (t.drop g.length) g.length
    match afterOpen with
    | c :: rest =>
      if c = sqChar || c = '"' then
        match tryFrom rest with
        | some r => some r
        | none => tryFrom afterOpen
      else tryFrom afterOpen
    | [] => none

/-- `re.findall`: scan left to right, non-overlapping. -/
def cssScanAux : Nat → List Char → List String
  | 0, _ => []
  | _, [] => []
  | fuel + 1, c :: cs =>
    match cssMatchAt (c :: cs) with
    | some (g, rest) => ofChs g :: cssScanAux fuel rest
    | none => cssScanAux fuel cs

/-- All capture groups of the source regex in `css`. -/
def cssFindall (css : String) : List String := cssScanAux css.data.length css.data

/-- Asset-type classification inside `rewrite_css_urls`. -/
def cssAssetType (u : String) : String :=
  if containsSub ".woff" u || containsSub ".ttf" u || containsSub ".eot" u ||
     containsSub ".otf" u
  then "font" else "image"

/-- `rewrite_css_urls`: `download` stands for `download_asset` (its
return value for a given absolute url and asset type); the second
component logs every `download_asset` call made. -/
def rewriteCssUrls (download : String → String → Option String)
    (cssContent baseUrl : String) : String × List (String × String) :=
  (cssFindall cssContent).foldl
    (fun acc u =>
      if startsWithS "data:" u then acc
      else
        let absoluteUrl := urljoin baseUrl u
        let assetType := cssAssetType u
        let calls := acc.2 ++ [(absoluteUrl, assetType)]
        match download absoluteUrl assetType with
        | some localPath =>
          let relativePath := "../" ++ localPath
          let c1 := replaceS acc.1 ("url(" ++ u ++ ")") ("url(" ++ relativePath ++ ")")
          let c2 := replaceS c1 ("url(\"" ++ u ++ "\")") ("url(\"" ++ relativePath ++ "\")")
          let c3 := replaceS c2 ("url(" ++ sq ++ u ++ sq ++ ")")
                      ("url(\"" ++ relativePath ++ "\")")
          (c3, calls)
        | none => (acc.1, calls))
    (cssContent, [])

/-! ## srcset handling in `rewrite_html_urls` (src/scraper.py lines 337-362)

For one enumerated `(element, attr, original_url, absolute_url)` task
with download result `localPath`, `applyAssetRewrite` computes the new
attribute value exactly as the code does. -/

/-- The success-path srcset rewrite: comma-split, strip, space-split;
replace the URL token of candidates equal to `original_url`. -/
def rewriteSrcset (attrValue originalUrl relativePath : String) : String :=
  let parts := splitOnCharS ',' attrValue
  let newParts := parts.map fun part =>
    match splitOnCharS ' ' (stripS part) with
    | [] => ""
    | t :: rest =>
      String.intercalate " " ((if t = originalUrl then relativePath else t) :: rest)
  String.intercalate ", " newParts

/-- New value of the attribute after the download attempt: on success,
`../local` (token-wise for srcset attributes); on failure, the whole
attribute is set to the absolute URL when the original was relative,
else left unchanged. -/
def applyAssetRewrite (isSrcsetAttr : Bool) (attrValue originalUrl absoluteUrl : String)
    (localPath : Option String) : String :=
  match localPath with
  | some lp =>
    let relativePath := "../" ++ lp
    if isSrcsetAttr then rewriteSrcset attrValue originalUrl relativePath else relativePath
  | none =>
    if ¬ (startsWithS "http://" originalUrl || startsWithS "https://" originalUrl ||
          startsWithS "//" originalUrl)
    then absoluteUrl else attrValue

/-! ## `RobotsChecker.can_fetch` (src/scraping_service/utils.py lines 115-152)

One call is a function of the current cache and the outcome of the
robots.txt GET (relevant only on a cache miss).  `canF c agent url`
stands for `RobotFileParser.can_fetch` after parsing content `c`.  The
result records the answer, the new cache, and whether a GET for
robots.txt was issued. -/

/-- Outcome of the robots.txt fetch attempt. -/
inductive RobotsOutcome where
  | ok200 (content : String)
  | httpOther (status : Nat)
  | netError
deriving DecidableEq

/-- Result of one `can_fetch` call. -/
structure RobotsRes where
  allowed : Bool
  cache : List (String × String)
  fetched : Bool
deriving DecidableEq

/-- Port of `RobotsChecker.can_fetch`.  On a cache miss, HTTP 200 parses
and caches; any other status returns `True` early WITHOUT touching the
cache; a network error or timeout likewise returns `True` uncached; an
unparsable URL hits the outer `except` and allows. -/
def canFetchModel (canF : String → String → String → Bool)
    (cache : List (String × String)) (url userAgent : String) (outcome : RobotsOutcome) :
    RobotsRes :=
  match urlparseE url with
  | .error _ => { allowed := true, cache := cache, fetched := false }
  | .ok parsed =>
    let baseUrl := parsed.scheme ++ "://" ++ parsed.netloc
    match lookupA cache baseUrl with
    | some content => { allowed := canF content userAgent url, cache := cache, fetched := false }
    | none =>
      match outcome with
      | .ok200 content =>
        { allowed := canF content userAgent url,
          cache := (baseUrl, content) :: cache, fetched := true }
      | .httpOther _ => { allowed := true, cache := cache, fetched := true }
      | .netError => { allowed := true, cache := cache, fetched := true }

/-! ## `WebScraper.download_asset`, sequential behaviour
(src/scraper.py lines 151-267)

State of the asset caches plus a log of issued GETs.  `status1` is the
HTTP status of the first GET for a clean URL, `status2` of the minimal-
header retry after a 403.  The dedup lookups use the raw `url` (the
fragment is stripped only afterwards, for the GET and the local path),
exactly as in the source. -/

/-- Asset-cache state (positive map, negative set, GET log). -/
structure DlState where
  assetMap : List (String × String)
  failedAssets : List String
  fetchLog : List String
deriving DecidableEq

/-- One complete, uninterleaved `download_asset(url, asset_type)` call. -/
def downloadAssetSeq (md5hex : String → String) (status1 status2 : String → Nat)
    (s : DlState) (url assetType : String) : Option String × DlState :=
  match lookupA s.assetMap url with
  | some p => (some p, s)
  | none =>
    if s.failedAssets.contains url then (none, s)
    else
      let cleanUrl := takeUntilChar '#' url
      let log1 := s.fetchLog ++ [cleanUrl]
      if status1 cleanUrl = 200 then
        let localPath := getAssetLocalPath md5hex cleanUrl assetType
        (some localPath,
         { assetMap := (url, localPath) :: s.assetMap,
           failedAssets := s.failedAssets, fetchLog := log1 })
      else if status1 cleanUrl = 403 then
        let log2 := log1 ++ [cleanUrl]
        if status2 cleanUrl = 200 then
          let localPath := getAssetLocalPath md5hex cleanUrl assetType
          (some localPath,
           { assetMap := (url, localPath) :: s.assetMap,
             failedAssets := s.failedAssets, fetchLog := log2 })
        else (none, { s with failedAssets := url :: s.failedAssets, fetchLog := log2 })
      else (none, { s with failedAssets := url :: s.failedAssets, fetchLog := log1 })

/-! ## Concurrent `download_asset` calls (C2 model)

Between the cache lookup at the top of `download_asset` and the publish
of the result, the coroutine suspends (rate limit, semaphore, the GET
itself); another worker can run its own cache lookup in that window.
The transition system below makes exactly those two moments atomic: the
cache check (which either answers from the cache or commits the worker
to a fetch) and the completion of the fetch (which issues the GET and
publishes).  There is no reservation set in the source, so the check
step commits unconditionally when the caches miss. -/

/-- Shared asset-cache state plus the per-worker in-flight slot
(`some (url, assetType)` = this worker passed the cache check for `url`
and its GET has not completed). -/
structure AConcSt where
  assetMap : List (String × String)
  failedAssets : List String
  fetchLog : List String
  inflight : List (Option (String × String))
deriving DecidableEq

/-- Atomic events of interleaved `download_asset` calls. -/
inductive AConcAct where
  | cacheCheck (i : Nat) (url assetType : String)
  | fetchOk (i : Nat)
  | fetchFail (i : Nat)
deriving DecidableEq

/-- One atomic event.  Events that do not apply (worker busy/idle in the
wrong way) are no-ops. -/
def aconcStep (md5hex : String → String) (s : AConcSt) : AConcAct → AConcSt
  | .cacheCheck i url assetType =>
    match s.inflight[i]? with
    | some none =>
      if (lookupA s.assetMap url).isSome || s.failedAssets.contains url then s
      else { s with inflight := s.inflight.set i (some (url, assetType)) }
    | some (some _) => s
    | none => s
  | .fetchOk i =>
    match s.inflight[i]? with
    | some (some (url, assetType)) =>
      let cleanUrl := takeUntilChar '#' url
      { assetMap := (url, getAssetLocalPath md5hex cleanUrl assetType) :: s.assetMap,
        failedAssets := s.failedAssets,
        fetchLog := s.fetchLog ++ [url],
        inflight := s.inflight.set i none }
    | some none => s
    | none => s
  | .fetchFail i =>
    match s.inflight[i]? with
    | some (some (url, _)) =>
      { s with failedAssets := url :: s.failedAssets,
               fetchLog := s.fetchLog ++ [url],
               inflight := s.inflight.set i none }
    | some none => s
    | none => s

/-- Run a sequence of events. -/
def aconcExec (md5hex : String → String) (acts : List AConcAct) (s : AConcSt) : AConcSt :=
  acts.foldl (aconcStep md5hex) s

/-- Initial state for `w` idle workers. -/
def aconcInit (w : Nat) : AConcSt :=
  { assetMap := [], failedAssets := [], fetchLog := [], inflight := List.replicate w none }

/-- No worker slot is committed to `url`. -/
def noInflightFor (s : AConcSt) (url : String) : Prop :=
  ∀ x ∈ s.inflight, Option.map Prod.fst x ≠ some url

/-! ## The global page cap under `stop_lock` (C1 model)

`check_limits` (src/scraper.py 458-479) and the post-fetch increment
(lines 562-565) each hold `stop_lock`, but the fetch between them
suspends, so several workers can pass the check before any increment
lands.  States track the counter, the stop flag, and per-worker whether
the worker is between its passed check and its increment. -/

/-- Counter state: `inflight.get! i = true` iff worker `i` passed
`check_limits` and has not yet incremented. -/
structure LimitSt where
  count : Nat
  shouldStop : Bool
  inflight : List Bool
deriving DecidableEq

/-- Atomic events: a `check_limits` critical section and the
increment critical section. -/
inductive LimitAct where
  | check (i : Nat)
  | increment (i : Nat)
deriving DecidableEq

/-- One atomic event.  `check i`: the worker's `should_stop` pre-test
plus `check_limits` (which sets the stop flag when the cap is already
reached).  `increment i`: `pages_scraped_count += 1` and the cap test,
in one critical section, exactly as lines 562-565. -/
def limitStep (maxPages : Nat) (s : LimitSt) : LimitAct → LimitSt
  | .check i =>
    match s.inflight[i]? with
    | some false =>
      if s.shouldStop then s
      else if maxPages ≤ s.count then { s with shouldStop := true }
      else { s with inflight := s.inflight.set i true }
    | some true => s
    | none => s
  | .increment i =>
    match s.inflight[i]? with
    | some true =>
      { count := s.count + 1,
        shouldStop := s.shouldStop || decide (maxPages ≤ s.count + 1),
        inflight := s.inflight.set i false }
    | some false => s
    | none => s

/-- Run a sequence of events. -/
def limitExec (maxPages : Nat) (s : LimitSt) (acts : List LimitAct) : LimitSt :=
  acts.foldl (limitStep maxPages) s

/-- Initial state for `w` workers. -/
def limitInit (w : Nat) : LimitSt :=
  { count := 0, shouldStop := false, inflight := List.replicate w false }

/-! ## Sequential crawl of scenario S6 (C9 model)

A faithful sequential interpreter of `process_url` + the worker loop for
pages whose HTML consists of anchor tags only (scenario S6 has no
assets).  `fetch url = none` covers the robots denial (and any other
`fetch_page` failure): the page is already in `visited` but no record is
stored.  Note the source extracts links from the REWRITTEN content
(line 580 reassigns `content`, line 601 reads it). -/

/-- Crawl environment for the model. -/
structure CrawlEnv where
  fetch : String → Option (List String)
  maxDepth : Nat
  maxPages : Nat
  pagesPerDomain : Nat
  baseDomain : String
  md5hex : String → String

/-- Crawl state: the shared sets/maps of `WebScraper` used by S6. -/
structure CrawlSt where
  visited : List String
  scrapedKeys : List String
  storedHtml : List (String × List String)
  queue : List (String × Nat)
  count : Nat
  domCounts : List (String × Nat)
  stop : Bool
deriving DecidableEq

/-- The anchor rewrite of `rewrite_html_urls` (lines 364-377) for one
href, given the visited set at rewrite time. -/
def rewriteAnchor (env : CrawlEnv) (visited : List String) (baseUrl href : String) : String :=
  if startsWithS "#" href || startsWithS "javascript:" href ||
     startsWithS "mailto:" href || startsWithS "tel:" href then href
  else
    let absoluteUrl := urljoin baseUrl href
    if visited.contains absoluteUrl then env.md5hex absoluteUrl ++ ".html" else absoluteUrl

/-- Deduplicate, first occurrence kept (the source collects a `set`). -/
def dedupL : List String → List String
  | [] => []
  | x :: xs => if xs.contains x then dedupL xs else x :: dedupL xs

/-- `process_url(url, depth)` run to completion without interleaving. -/
def processUrlModel (env : CrawlEnv) (st : CrawlSt) (url : String) (depth : Nat) : CrawlSt :=
  if st.stop then st
  else if st.visited.contains url || env.maxDepth < depth then st
  else if env.maxPages ≤ st.count then { st with stop := true }
  else if env.pagesPerDomain ≤ getCount st.domCounts (urlparseT url).netloc then st
  else
    let st1 := { st with visited := url :: st.visited }
    match env.fetch url with
    | none => st1
    | some anchors =>
      let st2 := { st1 with
        count := st1.count + 1,
        stop := st1.stop || decide (env.maxPages ≤ st1.count + 1),
        domCounts := bumpCount st1.domCounts (urlparseT url).netloc }
      let rewritten := anchors.map (rewriteAnchor env st2.visited url)
      let st3 := { st2 with
        storedHtml := (url, rewritten) :: st2.storedHtml,
        scrapedKeys := url :: st2.scrapedKeys }
      if st3.stop then st3
      else
        let extracted := dedupL (rewritten.filterMap fun href =>
          let absoluteUrl := urljoin url href
          if shouldScrape absoluteUrl env.baseDomain then some absoluteUrl else none)
        extracted.foldl
          (fun acc u =>
            if acc.visited.contains u || acc.stop then acc
            else { acc with queue := acc.queue ++ [(u, depth + 1)] })
          st3

/-- The worker/monitor drain loop, sequentially. -/
def runCrawl (env : CrawlEnv) : Nat → CrawlSt → CrawlSt
  | 0, st => st
  | fuel + 1, st =>
    if st.stop then { st with queue := [] }
    else
      match st.queue with
      | [] => st
      | (u, d) :: rest => runCrawl env fuel (processUrlModel env { st with queue := rest } u d)

/-- The S6 environment: seed `http://h/a` links to `http://h/private`;
robots denies `/private` (its fetch returns `None`). -/
def s6Env : CrawlEnv :=
  { fetch := fun u => if u = "http://h/a" then some ["http://h/private"] else none,
    maxDepth := 3, maxPages := 100, pagesPerDomain := 50,
    baseDomain := "http://h", md5hex := fun _ => "cafebabe" }

/-- Initial S6 state: the seed at depth 0. -/
def s6Init : CrawlSt :=
  { visited := [], scrapedKeys := [], storedHtml := [], queue := [("http://h/a", 0)],
    count := 0, domCounts := [], stop := false }

/-! ## Auxiliary predicates and measures for the invariant proofs -/

/-- Number of `true` entries (workers between check and increment). -/
def trueCount : List Bool → Nat
  | [] => 0
  | b :: l => (if b then 1 else 0) + trueCount l

/-- Occurrences of `u` in a log. -/
def countOccur (u : String) : List String → Nat
  | [] => 0
  | x :: xs => (if x = u then 1 else 0) + countOccur u xs

/-- Invariant of the page-cap system: the counter plus the pending
increments stays under `maxPages + workers - 1`, and whenever the
counter has reached the cap the stop signal is already set. -/
def LimitInv (maxPages : Nat) (s : LimitSt) : Prop :=
  s.count + trueCount s.inflight ≤ maxPages + s.inflight.length - 1
  ∧ (0 < maxPages → maxPages ≤ s.count → s.shouldStop = true)

/-! ## Helper lemmas -/

theorem trueCount_le_length : ∀ l : List Bool, trueCount l ≤ l.length := by
  intro l
  induction l with
  | nil => simp [trueCount]
  | cons b t ih => cases b <;> simp [trueCount] <;> omega

theorem trueCount_replicate_false : ∀ w : Nat, trueCount (List.replicate w false) = 0 := by
  intro w
  induction w with
  | zero => rfl
  | succ n ih => simp [List.replicate, trueCount, ih]

theorem trueCount_set_true : ∀ (l : List Bool) (i : Nat), l[i]? = some false →
    trueCount (l.set i true) = trueCount l + 1 := by
  intro l
  induction l with
  | nil => intro i h; simp at h
  | cons b t ih =>
    intro i h
    cases i with
    | zero =>
      simp at h
      subst h
      simp [trueCount, List.set]
      omega
    | succ j =>
      simp at h
      have := ih j h
      cases b <;> simp [trueCount, List.set, this]
      omega

theorem trueCount_set_false : ∀ (l : List Bool) (i : Nat), l[i]? = some true →
    trueCount l = trueCount (l.set i false) + 1 := by
  intro l
  induction l with
  | nil => intro i h; simp at h
  | cons b t ih =>
    intro i h
    cases i with
    | zero =>
      simp at h
      subst h
      simp [trueCount, List.set]
      omega
    | succ j =>
      simp at h
      have := ih j h
      cases b <;> simp [trueCount, List.set] <;> omega

theorem trueCount_lt_of_get_false : ∀ (l : List Bool) (i : Nat), l[i]? = some false →
    trueCount l + 1 ≤ l.length := by
  intro l
  induction l with
  | nil => intro i h; simp at h
  | cons b t ih =>
    intro i h
    cases i with
    | zero =>
      simp at h
      subst h
      have := trueCount_le_length t
      simp [trueCount]
      omega
    | succ j =>
      simp at h
      have := ih j h
      cases b <;> simp [trueCount] <;> omega

theorem limitStep_inv (maxPages : Nat) (s : LimitSt) (a : LimitAct)
    (h : LimitInv maxPages s) : LimitInv maxPages (limitStep maxPages s a) := by
  obtain ⟨h1, h2⟩ := h
  cases a with
  | check i =>
    simp only [limitStep]
    cases hg : s.inflight[i]? with
    | none => exact ⟨h1, h2⟩
    | some b =>
      cases b with
      | true => exact ⟨h1, h2⟩
      | false =>
        by_cases hs : s.shouldStop
        · simp only [hs, if_true]
          exact ⟨h1, h2⟩
        · simp only [hs, Bool.false_eq_true, if_false]
          by_cases hc : maxPages ≤ s.count
          · simp only [hc, if_true]
            exact ⟨h1, fun _ _ => rfl⟩
          · simp only [hc, if_false]
            refine ⟨?_, fun _ hcount => absurd hcount hc⟩
            show s.count + trueCount (s.inflight.set i true) ≤
              maxPages + (s.inflight.set i true).length - 1
            rw [trueCount_set_true _ _ hg, List.length_set]
            have hb := trueCount_lt_of_get_false _ _ hg
            omega
  | increment i =>
    simp only [limitStep]
    cases hg : s.inflight[i]? with
    | none => exact ⟨h1, h2⟩
    | some b =>
      cases b with
      | false => exact ⟨h1, h2⟩
      | true =>
        constructor
        · show s.count + 1 + trueCount (s.inflight.set i false) ≤
            maxPages + (s.inflight.set i false).length - 1
          rw [List.length_set]
          have := trueCount_set_false _ _ hg
          omega
        · intro hp hcount
          show (s.shouldStop || decide (maxPages ≤ s.count + 1)) = true
          have hx : maxPages ≤ s.count + 1 := hcount
          simp [hx]

theorem limitStep_length (maxPages : Nat) (s : LimitSt) (a : LimitAct) :
    (limitStep maxPages s a).inflight.length = s.inflight.length := by
  cases a with
  | check i =>
    simp only [limitStep]
    cases s.inflight[i]? with
    | none => rfl
    | some b =>
      cases b with
      | true => rfl
      | false =>
        by_cases hs : s.shouldStop
        · simp [hs]
        · by_cases hc : maxPages ≤ s.count <;> simp [hs, hc, List.length_set]
  | increment i =>
    simp only [limitStep]
    cases s.inflight[i]? with
    | none => rfl
    | some b =>
      cases b with
      | false => rfl
      | true => simp [List.length_set]

theorem limitExec_inv (maxPages : Nat) (acts : List LimitAct) (s : LimitSt)
    (h : LimitInv maxPages s) : LimitInv maxPages (limitExec maxPages s acts) := by
  induction acts generalizing s with
  | nil => exact h
  | cons a as ih => exact ih _ (limitStep_inv maxPages s a h)

theorem limitExec_length (maxPages : Nat) (acts : List LimitAct) (s : LimitSt) :
    (limitExec maxPages s acts).inflight.length = s.inflight.length := by
  induction acts generalizing s with
  | nil => rfl
  | cons a as ih => rw [limitExec, List.foldl_cons, ← limitExec, ih, limitStep_length]

theorem limitInit_inv (maxPages w : Nat) : LimitInv maxPages (limitInit w) := by
  constructor
  · show 0 + trueCount (List.replicate w false) ≤ maxPages + (List.replicate w false).length - 1
    rw [trueCount_replicate_false]
    omega
  · intro hp hc
    simp only [limitInit] at hc
    omega

theorem countOccur_append (u : String) (a b : List String) :
    countOccur u (a ++ b) = countOccur u a + countOccur u b := by
  induction a with
  | nil => simp [countOccur]
  | cons x xs ih => simp [countOccur, ih]; omega

theorem aconcStep_no_refetch (md5hex : String → String) (s : AConcSt) (a : AConcAct)
    (u : String) (h1 : (lookupA s.assetMap u).isSome = true) (h2 : noInflightFor s u) :
    (lookupA (aconcStep md5hex s a).assetMap u).isSome = true
    ∧ noInflightFor (aconcStep md5hex s a) u
    ∧ countOccur u (aconcStep md5hex s a).fetchLog = countOccur u s.fetchLog := by
  cases a with
  | cacheCheck i url assetType =>
    simp only [aconcStep]
    cases hg : s.inflight[i]? with
    | none => exact ⟨h1, h2, rfl⟩
    | some o =>
      cases o with
      | some p => exact ⟨h1, h2, rfl⟩
      | none =>
        by_cases hb : ((lookupA s.assetMap url).isSome || s.failedAssets.contains url) = true
        · simp only [hb, if_true]
          exact ⟨h1, h2, by trivial⟩
        · have hne : url ≠ u := by
            intro he
            subst he
            apply hb
            simp [h1]
          simp only [hb, if_false]
          refine ⟨h1, ?_, rfl⟩
          simp only [noInflightFor] at h2 ⊢
          intro x hx
          rcases List.mem_or_eq_of_mem_set hx with hmem | hx2
          · exact h2 x hmem
          · subst hx2
            simp [hne]
  | fetchOk i =>
    simp only [aconcStep]
    cases hg : s.inflight[i]? with
    | none => exact ⟨h1, h2, rfl⟩
    | some o =>
      cases o with
      | none => exact ⟨h1, h2, rfl⟩
      | some p =>
        obtain ⟨url, assetType⟩ := p
        have hne : url ≠ u := by
          have hm := List.getElem?_mem hg
          have := h2 _ hm
          simpa using this
        refine ⟨?_, ?_, ?_⟩
        · show (lookupA ((url, _) :: s.assetMap) u).isSome = true
          simp only [lookupA]
          rw [if_neg hne]
          exact h1
        · simp only [noInflightFor] at h2 ⊢
          intro x hx
          rcases List.mem_or_eq_of_mem_set hx with hmem | hx2
          · exact h2 x hmem
          · subst hx2
            simp
        · show countOccur u (s.fetchLog ++ [url]) = countOccur u s.fetchLog
          rw [countOccur_append]
          simp [countOccur, hne]
  | fetchFail i =>
    simp only [aconcStep]
    cases hg : s.inflight[i]? with
    | none => exact ⟨h1, h2, rfl⟩
    | some o =>
      cases o with
      | none => exact ⟨h1, h2, rfl⟩
      | some p =>
        obtain ⟨url, assetType⟩ := p
        have hne : url ≠ u := by
          have hm := List.getElem?_mem hg
          have := h2 _ hm
          simpa using this
        refine ⟨h1, ?_, ?_⟩
        · simp only [noInflightFor] at h2 ⊢
          intro x hx
          rcases List.mem_or_eq_of_mem_set hx with hmem | hx2
          · exact h2 x hmem
          · subst hx2
            simp
        · show countOccur u (s.fetchLog ++ [url]) = countOccur u s.fetchLog
          rw [countOccur_append]
          simp [countOccur, hne]

theorem aconcExec_no_refetch (md5hex : String → String) (acts : List AConcAct)
    (s : AConcSt) (u : String)
    (h1 : (lookupA s.assetMap u).isSome = true) (h2 : noInflightFor s u) :
    countOccur u (aconcExec md5hex acts s).fetchLog = countOccur u s.fetchLog := by
  induction acts generalizing s with
  | nil => rfl
  | cons a as ih =>
    obtain ⟨k1, k2, k3⟩ := aconcStep_no_refetch md5hex s a u h1 h2
    calc countOccur u (aconcExec md5hex (a :: as) s).fetchLog
        = countOccur u (aconcExec md5hex as (aconcStep md5hex s a)).fetchLog := rfl
      _ = countOccur u (aconcStep md5hex s a).fetchLog := ih _ k1 k2
      _ = countOccur u s.fetchLog := k3

/-! ## Claim theorems -/

/-- C1 counterexample: the claim `pages_scraped_count ≤ max_pages at
every point` is false.  With `max_pages = 1` and two workers, both
workers pass `check_limits` (each sees count `0 < 1`), both fetches
succeed, and both increments land: the counter reaches `2 > 1` at a
reachable state (and hence in the emitted manifest's `pages_scraped`). -/
theorem pages_scraped_cap_counterexample :
    (limitExec 1 (limitInit 2)
      [.check 0, .check 1, .increment 0, .increment 1]).count = 2
    ∧ 1 < (limitExec 1 (limitInit 2)
      [.check 0, .check 1, .increment 0, .increment 1]).count := by
  constructor <;> decide

/-- C1 (amended): in every interleaving of `w` workers, the page counter
never exceeds `max_pages + w - 1` (each worker passes `check_limits`
only while the counter is strictly below the cap, and contributes at
most one pending increment), and whenever the counter has reached the
cap the stop signal is already set — the increment that reaches the cap
sets `should_stop` in the same `stop_lock` critical section. -/
theorem pages_scraped_cap_bound (maxPages w : Nat) (acts : List LimitAct) :
    (limitExec maxPages (limitInit w) acts).count ≤ maxPages + w - 1
    ∧ (0 < maxPages → maxPages ≤ (limitExec maxPages (limitInit w) acts).count →
        (limitExec maxPages (limitInit w) acts).shouldStop = true) := by
  obtain ⟨hb, hs⟩ := limitExec_inv maxPages acts (limitInit w) (limitInit_inv maxPages w)
  have hl : (limitExec maxPages (limitInit w) acts).inflight.length = w := by
    rw [limitExec_length]
    simp [limitInit]
  refine ⟨?_, hs⟩
  rw [hl] at hb
  omega

/-- Witness for `pages_scraped_cap_bound` at `max_pages = 1`, one
worker, one processed page. -/
theorem pages_scraped_cap_bound_witness :
    (limitExec 1 (limitInit 1) [.check 0, .increment 0]).shouldStop = true :=
  (pages_scraped_cap_bound 1 1 [.check 0, .increment 0]).2 (by decide) (by decide)

/-- C2 counterexample: two workers both call `download_asset` for the
same URL; both cache checks run before either fetch publishes, so TWO
GETs are issued for one URL — there is no reservation set awaiting the
in-flight result. -/
theorem download_asset_duplicate_fetch :
    countOccur "http://h/logo.png"
      (aconcExec (fun _ => "d41d8cd9")
        [.cacheCheck 0 "http://h/logo.png" "image",
         .cacheCheck 1 "http://h/logo.png" "image",
         .fetchOk 0, .fetchOk 1] (aconcInit 2)).fetchLog = 2
    ∧ 1 < countOccur "http://h/logo.png"
      (aconcExec (fun _ => "d41d8cd9")
        [.cacheCheck 0 "http://h/logo.png" "image",
         .cacheCheck 1 "http://h/logo.png" "image",
         .fetchOk 0, .fetchOk 1] (aconcInit 2)).fetchLog := by
  constructor <;> decide

/-- C2 (amended): the positive/negative caches deduplicate only
non-overlapping calls.  Once a result for `u` is published in
`asset_map` and no worker is still committed to `u`, no later event
sequence ever issues another GET for `u`; overlapping calls (both cache
checks before either publish) each issue their own fetch, as the
counterexample shows. -/
theorem download_asset_no_refetch (md5hex : String → String) (acts : List AConcAct)
    (s : AConcSt) (u : String)
    (h1 : (lookupA s.assetMap u).isSome = true) (h2 : noInflightFor s u) :
    countOccur u (aconcExec md5hex acts s).fetchLog = countOccur u s.fetchLog :=
  aconcExec_no_refetch md5hex acts s u h1 h2

/-- Witness for `download_asset_no_refetch`: with
`u = "http://h/a.png"` already published and a fresh worker calling
`download_asset` for it, no GET is issued. -/
theorem download_asset_no_refetch_witness :
    countOccur "http://h/a.png"
      (aconcExec (fun _ => "d41d8cd9")
        [.cacheCheck 0 "http://h/a.png" "image", .fetchOk 0]
        { assetMap := [("http://h/a.png", "images/d41d8cd9.png")],
          failedAssets := [], fetchLog := [], inflight := [none] }).fetchLog = 0 :=
  download_asset_no_refetch (fun _ => "d41d8cd9")
    [.cacheCheck 0 "http://h/a.png" "image", .fetchOk 0]
    { assetMap := [("http://h/a.png", "images/d41d8cd9.png")],
      failedAssets := [], fetchLog := [], inflight := [none] }
    "http://h/a.png" (by decide) (by simp [noInflightFor])

/-- C3 (code-bug evidence): the regex in `rewrite_css_urls` is the
literal text `urlKATEX_INLINE_OPEN[\x27"]?([^\x27")]+)[\x27"]?KATEX_INLINE_CLOSE`
(`\(`/`\)` were mangled into the words `KATEX_INLINE_OPEN`/`KATEX_INLINE_CLOSE`),
so on real CSS it finds no `url(...)` token at all: for a stylesheet with a
plain and a double-quoted `url(...)` reference, `findall` returns nothing,
no fetch is triggered, and the text is returned unchanged — whatever
`download_asset` would answer.  The code contradicts its own
`url({url})` replacement logic, which can never fire. -/
theorem rewrite_css_mangled_regex (download : String → String → Option String) :
    cssFindall "background: url(logo.png) url(\"a.woff\");" = []
    ∧ rewriteCssUrls download "background: url(logo.png) url(\"a.woff\");" "http://h/page.html"
        = ("background: url(logo.png) url(\"a.woff\");", []) := by
  exact ⟨rfl, rfl⟩

/-- C4 counterexample: a page whose fetch succeeded but whose disk write
fails (`ioOk = false`) is still recorded: `scraped_data` gets an entry
with `filepath = None`, `stats.pages_scraped` is incremented and
`stats.pages_failed` stays `0` — the claim demands a failed count and no
manifest entry. -/
theorem storage_error_counterexample :
    storeTailModel (fun _ => "cafebabe") "out" [] 0 0 "http://h/a" "text/html" false
      = ([("http://h/a", none)], 1, 0) := rfl

/-- C4 (amended): on a storage I/O error the page is counted as scraped
(never as failed) and receives a metadata entry whose `filepath` is
null; only on a successful write does the entry carry the real path.
Consequently a `pages` entry's `stored_path` can be null after an I/O
error, and the stored-file invariant holds only for entries written
successfully. -/
theorem storage_error_amended (md5hex : String → String) (outputDir : String)
    (scrapedData : List (String × Option String)) (ps pf : Nat) (url contentType : String) :
    storeTailModel md5hex outputDir scrapedData ps pf url contentType false
      = ((url, none) :: scrapedData, ps + 1, pf)
    ∧ storeTailModel md5hex outputDir scrapedData ps pf url contentType true
      = ((url, some (savePagePath md5hex outputDir url contentType)) :: scrapedData,
          ps + 1, pf) :=
  ⟨rfl, rfl⟩

/-- C5 counterexample: on a cache miss answered with HTTP 404 the call
returns allow but does NOT populate the cache, so the next query for the
same origin performs another robots.txt GET — the claim says any non-200
outcome caches an allow-all sentinel and later queries skip the fetch. -/
theorem robots_no_negative_cache :
    (canFetchModel (fun _ _ _ => false) [] "http://h/x" "WebArchiver/1.0"
        (.httpOther 404)).cache = []
    ∧ (canFetchModel (fun _ _ _ => false) [] "http://h/x" "WebArchiver/1.0"
        (.httpOther 404)).fetched = true
    ∧ (canFetchModel (fun _ _ _ => false)
        (canFetchModel (fun _ _ _ => false) [] "http://h/x" "WebArchiver/1.0"
          (.httpOther 404)).cache
        "http://h/x" "WebArchiver/1.0" (.httpOther 404)).fetched = true := by
  refine ⟨rfl, rfl, rfl⟩

/-- C5 (amended): only HTTP 200 populates the robots cache: a cached
origin is answered from the cache without a fetch; an uncached origin
always fetches, and on 200 the parsed rules are cached while any other
status, network error or timeout returns allow-all WITHOUT caching, so
subsequent queries for that origin fetch robots.txt again. -/
theorem robots_cache_amended (canF : String → String → String → Bool)
    (cache : List (String × String)) (url userAgent : String) (outcome : RobotsOutcome)
    (parsed : UrlParts) (hp : urlparseE url = Except.ok parsed) :
    (∀ content, lookupA cache (parsed.scheme ++ "://" ++ parsed.netloc) = some content →
       canFetchModel canF cache url userAgent outcome
         = { allowed := canF content userAgent url, cache := cache, fetched := false })
    ∧ (lookupA cache (parsed.scheme ++ "://" ++ parsed.netloc) = none →
        (canFetchModel canF cache url userAgent outcome).fetched = true
        ∧ (∀ content, outcome = .ok200 content →
             canFetchModel canF cache url userAgent outcome
               = { allowed := canF content userAgent url,
                   cache := (parsed.scheme ++ "://" ++ parsed.netloc, content) :: cache,
                   fetched := true })
        ∧ ((∀ content, outcome ≠ .ok200 content) →
             canFetchModel canF cache url userAgent outcome
               = { allowed := true, cache := cache, fetched := true })) := by
  constructor
  · intro content hc
    simp only [canFetchModel, hp, hc]
  · intro hc
    refine ⟨?_, ?_, ?_⟩
    · simp only [canFetchModel, hp, hc]
      cases outcome <;> rfl
    · intro content ho
      subst ho
      simp only [canFetchModel, hp, hc]
    · intro ho
      cases outcome with
      | ok200 content => exact absurd rfl (ho content)
      | httpOther st => simp only [canFetchModel, hp, hc]
      | netError => simp only [canFetchModel, hp, hc]

/-- Witness for `robots_cache_amended`: origin `http://h` already cached
with content `"R"`; the query is answered from the cache and no fetch
happens. -/
theorem robots_cache_amended_witness :
    canFetchModel (fun _ _ _ => false) [("http://h", "R")] "http://h/x" "WebArchiver/1.0"
        (.httpOther 404)
      = { allowed := false, cache := [("http://h", "R")], fetched := false } :=
  (robots_cache_amended (fun _ _ _ => false) [("http://h", "R")] "http://h/x"
      "WebArchiver/1.0" (.httpOther 404) (urlparseT "http://h/x") (by rfl)).1 "R" (by rfl)

/-- C6 counterexample: two asset URLs differing only in their fragment.
Both are admitted (the caches are keyed by the UNSTRIPPED url), two GETs
are issued for the same clean URL, and both map to the same local path —
the claim's `at most one download between them` and `same asset-cache
entry` are false. -/
theorem fragment_dedup_counterexample :
    (downloadAssetSeq (fun _ => "d41d8cd9") (fun _ => 200) (fun _ => 0)
      ((downloadAssetSeq (fun _ => "d41d8cd9") (fun _ => 200) (fun _ => 0)
        { assetMap := [], failedAssets := [], fetchLog := [] }
        "http://h/a.png#x" "image").2)
      "http://h/a.png#y" "image").2.fetchLog
      = ["http://h/a.png", "http://h/a.png"]
    ∧ (downloadAssetSeq (fun _ => "d41d8cd9") (fun _ => 200) (fun _ => 0)
        { assetMap := [], failedAssets := [], fetchLog := [] }
        "http://h/a.png#x" "image").1 = some "images/d41d8cd9.png"
    ∧ (downloadAssetSeq (fun _ => "d41d8cd9") (fun _ => 200) (fun _ => 0)
        ((downloadAssetSeq (fun _ => "d41d8cd9") (fun _ => 200) (fun _ => 0)
          { assetMap := [], failedAssets := [], fetchLog := [] }
          "http://h/a.png#x" "image").2)
        "http://h/a.png#y" "image").1 = some "images/d41d8cd9.png" := by
  refine ⟨rfl, rfl, rfl⟩

/-- C6 (amended): `download_asset` strips the fragment before the GET
and before computing the local storage path — so URLs differing only in
fragment share one local path — but the dedup caches are keyed by the
UNSTRIPPED url: an uncached fragment-variant issues its own GET and gets
its own `asset_map` entry. -/
theorem fragment_dedup_amended (md5hex : String → String) (status1 status2 : String → Nat)
    (s : DlState) (u v assetType : String)
    (h1 : lookupA s.assetMap u = none) (h2 : s.failedAssets.contains u = false)
    (h200 : status1 (takeUntilChar '#' u) = 200) :
    downloadAssetSeq md5hex status1 status2 s u assetType
      = (some (getAssetLocalPath md5hex (takeUntilChar '#' u) assetType),
         { assetMap := (u, getAssetLocalPath md5hex (takeUntilChar '#' u) assetType)
             :: s.assetMap,
           failedAssets := s.failedAssets,
           fetchLog := s.fetchLog ++ [takeUntilChar '#' u] })
    ∧ (takeUntilChar '#' u = takeUntilChar '#' v →
        getAssetLocalPath md5hex (takeUntilChar '#' v) assetType
          = getAssetLocalPath md5hex (takeUntilChar '#' u) assetType) := by
  constructor
  · simp only [downloadAssetSeq, h1, h2, h200]
    rfl
  · intro he
    rw [he]

/-- Witness for `fragment_dedup_amended` on fresh caches and the
fragment pair `#x` / `#y`. -/
theorem fragment_dedup_amended_witness :
    downloadAssetSeq (fun _ => "d41d8cd9") (fun _ => 200) (fun _ => 0)
        { assetMap := [], failedAssets := [], fetchLog := [] } "http://h/a.png#x" "image"
      = (some "images/d41d8cd9.png",
         { assetMap := [("http://h/a.png#x", "images/d41d8cd9.png")],
           failedAssets := [], fetchLog := ["http://h/a.png"] }) :=
  (fragment_dedup_amended (fun _ => "d41d8cd9") (fun _ => 200) (fun _ => 0)
    { assetMap := [], failedAssets := [], fetchLog := [] }
    "http://h/a.png#x" "http://h/a.png#y" "image" (by rfl) (by rfl) (by rfl)).1

/-- C7 (code-bug evidence): `ext = os.path.splitext(...)[1] or '.bin'`
short-circuits the type-specific defaults, so a css asset whose URL path
has no extension is stored as `.bin`, not `.css` (while a real `.css`
extension is preserved and an over-long extension does reach the `.css`
default).  This holds for every digest function. -/
theorem asset_local_path_empty_ext (md5hex : String → String) :
    getAssetLocalPath md5hex "https://h/style" "css"
      = "css/" ++ md5hex "https://h/style" ++ ".bin"
    ∧ getAssetLocalPath md5hex "https://h/m.css" "css"
      = "css/" ++ md5hex "https://h/m.css" ++ ".css"
    ∧ getAssetLocalPath md5hex "https://h/m.averylongext" "css"
      = "css/" ++ md5hex "https://h/m.averylongext" ++ ".css" := by
  refine ⟨rfl, rfl, rfl⟩

/-- C8 counterexample: a srcset candidate `a.png 1x` (relative) whose
download fails: the code overwrites the WHOLE `srcset` attribute with
the candidate's absolute URL, losing the other candidate `b.png 2x` and
all descriptors — the claim requires only the URL token to change. -/
theorem srcset_failure_clobbers :
    applyAssetRewrite true "a.png 1x, b.png 2x" "a.png" "http://h/a.png" none
      = "http://h/a.png"
    ∧ containsSub "b.png"
        (applyAssetRewrite true "a.png 1x, b.png 2x" "a.png" "http://h/a.png" none)
      = false := by
  refine ⟨rfl, rfl⟩

/-- C8 (amended): on success only the matching candidate's URL token is
replaced and descriptors survive (concrete instance below); on failure
the handling is attribute-wide, not token-wise: a relative original URL
causes the whole attribute to be replaced by that candidate's absolute
URL, and an already-absolute original leaves the attribute unchanged. -/
theorem srcset_rewrite_amended (attrValue originalUrl absoluteUrl : String) :
    ((startsWithS "http://" originalUrl || startsWithS "https://" originalUrl ||
        startsWithS "//" originalUrl) = false →
      applyAssetRewrite true attrValue originalUrl absoluteUrl none = absoluteUrl)
    ∧ ((startsWithS "http://" originalUrl || startsWithS "https://" originalUrl ||
        startsWithS "//" originalUrl) = true →
      applyAssetRewrite true attrValue originalUrl absoluteUrl none = attrValue)
    ∧ applyAssetRewrite true "a.png 1x, b.png 2x" "a.png" "http://h/a.png"
        (some "images/d41d8cd9.png")
      = "../images/d41d8cd9.png 1x, b.png 2x" := by
  refine ⟨?_, ?_, rfl⟩
  · intro h
    simp [applyAssetRewrite, h]
  · intro h
    simp [applyAssetRewrite, h]

/-- Witness for `srcset_rewrite_amended`: the relative candidate
`a.png` failing rewrites the attribute to the absolute URL. -/
theorem srcset_rewrite_amended_witness :
    applyAssetRewrite true "a.png 1x, b.png 2x" "a.png" "http://h/a.png" none
      = "http://h/a.png" :=
  (srcset_rewrite_amended "a.png 1x, b.png 2x" "a.png" "http://h/a.png").1 (by rfl)

/-- C9: scenario S6.  Seed `http://h/a` links to `http://h/private`,
whose fetch is denied by robots: the crawl produces no page record for
`/private`, leaves `/private` in the visited set (it was inserted before
the fetch), and the stored seed page's anchor is the absolute URL
`http://h/private` — at rewrite time `/private` was not yet visited, so
it got the external treatment, not a local `{digest}.html` link. -/
theorem s6_robots_deny :
    (runCrawl s6Env 5 s6Init).scrapedKeys.contains "http://h/private" = false
    ∧ (runCrawl s6Env 5 s6Init).visited.contains "http://h/private" = true
    ∧ lookupA (runCrawl s6Env 5 s6Init).storedHtml "http://h/a"
        = some ["http://h/private"] := by
  refine ⟨rfl, rfl, rfl⟩

/-- C10: `URLFilter.should_scrape` is a total Boolean function of its
two string arguments; the `except` wrapper maps any exception raised by
the body (e.g. `urlparse`'s `Invalid IPv6 URL`) to `False`, and
otherwise returns exactly the body's verdict. -/
theorem should_scrape_total (url baseDomain : String) :
    (∀ e, shouldScrapeE url baseDomain = Except.error e →
        shouldScrape url baseDomain = false)
    ∧ (∀ b, shouldScrapeE url baseDomain = Except.ok b →
        shouldScrape url baseDomain = b) := by
  constructor <;> intro x h <;> simp [shouldScrape, h]

/-- Witness for `should_scrape_total`: a URL on which CPython's
`urlparse` raises (unbalanced bracket in the netloc) is rejected. -/
theorem should_scrape_total_witness :
    shouldScrape "http://[x/y" "http://h" = false :=
  (should_scrape_total "http://[x/y" "http://h").1 "Invalid IPv6 URL" (by rfl)

end Scraper
